import Mathlib

/-!
Shallow embedding of the MagicCut video-processing pipeline
(`server/videoProcessor.ts` and `server/routes.ts`).

Conventions of the embedding:
* Times are integer milliseconds, modelled as `ℕ` (the source floors every
  parsed seconds value to integer milliseconds; all values are nonnegative,
  and the one subtraction `endTime - startTime` that could go negative in
  JavaScript is only ever compared against `500`, a comparison on which
  truncated `ℕ` subtraction agrees with the JavaScript number).
* The external `ffprobe` / `ffmpeg` invocations are opaque collaborators:
  `processVideo` takes the probe result (`MediaMetadata`) and the list of
  millisecond timestamps parsed from the detector's output as parameters,
  which corresponds to a run in which both external calls succeed.
* Callback invocations (`onProgress`) are reified as a list of
  `ProgressEvent`s, in the order the callbacks fire; `onComplete` /
  `onError` are reified as the `RunOutcome`.
-/

namespace MagicCut

/-- Pipeline phase that generated an event, by emission site in
`processVideo`: the `onProgress(5, "Analyzing video...")` call is `probing`,
`onProgress(15, ...)` is `detecting`, `onProgress(30, ...)` and the
per-clip calls inside the loop are `extracting`, and the final
`onProgress(100, "Processing complete")` is `done`. -/
inductive Phase where
  | probing
  | detecting
  | extracting
  | done
  deriving DecidableEq, Repr

/-- Numeric order of the phases along a run. -/
def phaseRank : Phase → ℕ
  | .probing => 0
  | .detecting => 1
  | .extracting => 2
  | .done => 3

/-- One `onProgress(progress, stage)` invocation, tagged with the phase of
its emission site. -/
structure ProgressEvent where
  progress : ℕ
  stage : String
  phase : Phase
  deriving DecidableEq, Repr

/-- Result of `getVideoInfo` (ffprobe): duration in milliseconds, codec
label, resolution string. -/
structure MediaMetadata where
  duration : ℕ
  format : String
  resolution : String
  deriving DecidableEq, Repr

/-- One element of `clipResults` in `processVideo`: the time range of a
retained clip (file paths are elided; they are injective functions of the
loop index and add nothing to the claims). -/
structure ClipResult where
  startTime : ℕ
  endTime : ℕ
  deriving DecidableEq, Repr

/-- The argument of `onComplete` in `processVideo`. -/
structure ProcessResults where
  clips : List ClipResult
  duration : ℕ
  format : String
  resolution : String
  deriving DecidableEq, Repr

/-- Terminal outcome of a run: `onComplete(results)` or `onError(message)`. -/
inductive RunOutcome where
  | completed (results : ProcessResults)
  | failed (message : String)
  deriving DecidableEq, Repr

/-- Embedding of `detectScenes` from the point where the external scan has
produced its parsed millisecond timestamps (`parsedTimestamps` holds one
entry per `pts_time:` line, already floored to milliseconds): the source
seeds the array with `0` ("Always include the start of the video") and then
sorts ascending with the numeric comparator `(a, b) => a - b`. -/
def detectScenes (parsedTimestamps : List ℕ) : List ℕ :=
  List.insertionSort (· ≤ ·) (0 :: parsedTimestamps)

/-- The `nextScene` expression of the extraction loop:
`i < scenes.length - 1 ? scenes[i + 1] : videoInfo.duration`. -/
def sceneEndTime (duration : ℕ) (scenes : List ℕ) (i : ℕ) : ℕ :=
  if i < scenes.length - 1 then scenes.getD (i + 1) 0 else duration

/-- The `duration = endTime - startTime` of candidate scene `i`. -/
def candidateDuration (duration : ℕ) (scenes : List ℕ) (i : ℕ) : ℕ :=
  sceneEndTime duration scenes i - scenes.getD i 0

/-- Clip pushed onto `clipResults` for a retained candidate `i`. -/
def mkClip (duration : ℕ) (scenes : List ℕ) (i : ℕ) : ClipResult :=
  ⟨scenes.getD i 0, sceneEndTime duration scenes i⟩

/-- Progress event emitted after extracting candidate `i`:
`30 + Math.floor(((i + 1) / totalScenes) * 60)` with stage label
`Extracting clip ${i + 1} of ${totalScenes}...`. -/
def mkClipEvent (scenes : List ℕ) (i : ℕ) : ProgressEvent :=
  ⟨30 + (i + 1) * 60 / scenes.length,
   "Extracting clip " ++ toString (i + 1) ++ " of " ++
     toString scenes.length ++ "...",
   Phase.extracting⟩

/-- Body of the extraction `for` loop for index `i`, acting on the
accumulated `(clipResults, emitted progress events)`.  A candidate with
`duration < 500` hits `continue`, which skips both the push and the
`onProgress` call at the bottom of the loop body. -/
def extractStep (duration : ℕ) (scenes : List ℕ)
    (acc : List ClipResult × List ProgressEvent) (i : ℕ) :
    List ClipResult × List ProgressEvent :=
  if candidateDuration duration scenes i < 500 then acc
  else (acc.1 ++ [mkClip duration scenes i], acc.2 ++ [mkClipEvent scenes i])

/-- The whole extraction loop `for (let i = 0; i < scenes.length; i++)`. -/
def extractLoop (duration : ℕ) (scenes : List ℕ) :
    List ClipResult × List ProgressEvent :=
  (List.range scenes.length).foldl (extractStep duration scenes) ([], [])

/-- Indices of the candidates the loop retains (those with
`duration >= 500`), in loop order. -/
def keptIndices (duration : ℕ) (scenes : List ℕ) : List ℕ :=
  (List.range scenes.length).filter
    (fun i => !decide (candidateDuration duration scenes i < 500))

/-- Embedding of `processVideo` for a run in which the probe and the
external detector scan both succeed: `info` is the probe result and
`parsedTimestamps` the detector's parsed output.  Mirrors the source:
emit `5`, probe, emit `15`, detect, throw `"No scenes detected in the
video"` when `scenes.length === 0` (the `catch` turns the throw into
`onError`), emit `30`, run the loop, emit `100`, call `onComplete`. -/
def processVideo (info : MediaMetadata) (parsedTimestamps : List ℕ) :
    RunOutcome × List ProgressEvent :=
  let scenes := detectScenes parsedTimestamps
  if scenes.length = 0 then
    (RunOutcome.failed "No scenes detected in the video",
     [⟨5, "Analyzing video...", Phase.probing⟩,
      ⟨15, "Detecting scenes...", Phase.detecting⟩])
  else
    let r := extractLoop info.duration scenes
    (RunOutcome.completed ⟨r.1, info.duration, info.format, info.resolution⟩,
     [⟨5, "Analyzing video...", Phase.probing⟩,
      ⟨15, "Detecting scenes...", Phase.detecting⟩,
      ⟨30, "Extracting clips...", Phase.extracting⟩]
       ++ r.2
       ++ [⟨100, "Processing complete", Phase.done⟩])

/-- A clip row as persisted by the `onComplete` handler in `routes.ts`. -/
structure ClipRecord where
  sceneIndex : ℕ
  startTime : ℕ
  endTime : ℕ
  duration : ℕ
  deriving DecidableEq, Repr

/-- Embedding of the `onComplete` handler's save loop in `routes.ts`:
`for (let i = 0; i < results.clips.length; i++)` stores each clip with
`sceneIndex: i` and `duration: clip.endTime - clip.startTime`. -/
def onCompleteClips (clips : List ClipResult) : List ClipRecord :=
  clips.enum.map fun p => ⟨p.1, p.2.startTime, p.2.endTime, p.2.endTime - p.2.startTime⟩

/-- The part of the stored video rows that the two routes under scrutiny
read and write: `id ↦ processingStatus` (the storage layer's `videos` map
projected to the `processingStatus` column). -/
def VideoStore : Type := List (ℕ × String)

/-- `dataStorage.getVideo(videoId)`, projected to the status column. -/
def getVideoStatus (videos : VideoStore) (videoId : ℕ) : Option String :=
  (List.find? (fun p => p.1 == videoId) videos).map (·.2)

/-- `dataStorage.updateVideoStatus(videoId, status)`. -/
def updateVideoStatus (videos : VideoStore) (videoId : ℕ) (status : String) :
    VideoStore :=
  List.map (fun p => if p.1 == videoId then (p.1, status) else p) videos

/-- Response of `POST /api/videos/:id/process`: `started` is the
`res.json({ message: "Processing started" })` branch, which is also the
branch that launches a fresh `processVideo` run in the background;
`notFound` is the 404 for an unknown id. -/
inductive ProcessResponse where
  | started
  | notFound
  deriving DecidableEq, Repr

/-- Embedding of the `POST /api/videos/:id/process` handler in `routes.ts`:
look the video up, 404 when absent; otherwise unconditionally set its
status to `"processing"` and launch `processVideo` — the handler consults
nothing about any prior run before doing so.  Returns the response paired
with the updated store. -/
def processRoute (videos : VideoStore) (videoId : ℕ) :
    ProcessResponse × VideoStore :=
  match getVideoStatus videos videoId with
  | none => (ProcessResponse.notFound, videos)
  | some _ =>
      (ProcessResponse.started, updateVideoStatus videos videoId "processing")

/-- Body of the `GET /api/videos/:id/status` response (the fields the
claims are about; `videoInfo` elided). -/
structure StatusResponse where
  status : String
  progress : ℕ
  clips : List ClipRecord
  deriving DecidableEq, Repr

/-- Embedding of the `GET /api/videos/:id/status` handler in `routes.ts`:
404 when the video is unknown, otherwise
`progress: video.processingStatus === "completed" ? 100 : 0` together with
the clips currently stored for the video (`clipsOf` is
`dataStorage.getClipsByVideo`).  The handler reads no in-flight run state
and the response has no stage field. -/
def statusRoute (videos : VideoStore) (clipsOf : ℕ → List ClipRecord)
    (videoId : ℕ) : Option StatusResponse :=
  match getVideoStatus videos videoId with
  | none => none
  | some st =>
      some ⟨st, if st == "completed" then 100 else 0, clipsOf videoId⟩

/-- A WebSocket client as the broadcaster sees it: its `readyState`, the
video id the observer is actually interested in (server-side the
broadcaster never reads this; the browser filters on the `videoId` field of
each payload), and the messages delivered so far.  Each delivered message
is the pair `(videoId, payload)`, mirroring
`JSON.stringify({ videoId, ...status })`. -/
structure WsClient (α : Type) where
  readyState : ℕ
  interest : ℕ
  inbox : List (ℕ × α)
  deriving DecidableEq, Repr

/-- Embedding of `broadcastStatus` in `routes.ts`: for every connected
client, if `client.readyState === 1` (OPEN) send `{ videoId, ...status }`,
otherwise skip the client, leaving it untouched. -/
def broadcastStatus {α : Type} (clients : List (WsClient α)) (videoId : ℕ)
    (status : α) : List (WsClient α) :=
  clients.map fun c =>
    if c.readyState = 1 then { c with inbox := c.inbox ++ [(videoId, status)] }
    else c

/-! ### Helper lemmas -/

/-- The extraction fold appends, to any accumulator, exactly one clip and
one progress event per index whose candidate passes the 500 ms filter. -/
theorem foldl_extractStep (d : ℕ) (s : List ℕ) (l : List ℕ) :
    ∀ acc : List ClipResult × List ProgressEvent,
      l.foldl (extractStep d s) acc =
        (acc.1 ++ (l.filter
            (fun i => !decide (candidateDuration d s i < 500))).map (mkClip d s),
         acc.2 ++ (l.filter
            (fun i => !decide (candidateDuration d s i < 500))).map (mkClipEvent s)) := by
  induction l with
  | nil => intro acc; simp
  | cons i t ih =>
      intro acc
      rw [List.foldl_cons, ih]
      by_cases h : candidateDuration d s i < 500
      · simp [extractStep, h, List.filter_cons]
      · simp [extractStep, h, List.filter_cons]

/-- Closed form of the extraction loop: clips and events are the images of
the retained indices. -/
theorem extractLoop_eq (d : ℕ) (s : List ℕ) :
    extractLoop d s =
      ((keptIndices d s).map (mkClip d s), (keptIndices d s).map (mkClipEvent s)) := by
  unfold extractLoop keptIndices
  rw [foldl_extractStep]
  simp

/-- The boundary list always has exactly one more entry than the parsed
detector output (the seeded `0`). -/
theorem detectScenes_length (ts : List ℕ) :
    (detectScenes ts).length = ts.length + 1 := by
  unfold detectScenes
  rw [List.length_insertionSort]
  rfl

/-- Detection output is never empty. -/
theorem detectScenes_ne_nil (ts : List ℕ) : detectScenes ts ≠ [] := by
  intro h
  have := detectScenes_length ts
  rw [h] at this
  exact Nat.succ_ne_zero _ this.symm

/-- Detection output is sorted ascending. -/
theorem detectScenes_sorted (ts : List ℕ) :
    List.Sorted (· ≤ ·) (detectScenes ts) :=
  List.sorted_insertionSort _ _

/-- Detection output always starts with the seeded boundary `0`. -/
theorem detectScenes_head (ts : List ℕ) : (detectScenes ts).head? = some 0 := by
  have hmem : 0 ∈ detectScenes ts :=
    (List.perm_insertionSort _ _).mem_iff.mpr (List.mem_cons_self 0 ts)
  have hs := detectScenes_sorted ts
  cases h : detectScenes ts with
  | nil => rw [h] at hmem; cases hmem
  | cons x l =>
      rw [h] at hmem hs
      rcases List.mem_cons.mp hmem with h0 | h0
      · simp [h0]
      · have hx := (List.sorted_cons.mp hs).1 0 h0
        simp [Nat.le_zero.mp hx]

/-- Closed form of a successful run: since the boundary list is never
empty, `processVideo` always takes the completion branch when probe and
scan succeed. -/
theorem processVideo_eq (info : MediaMetadata) (ts : List ℕ) :
    processVideo info ts =
      (RunOutcome.completed
        ⟨(keptIndices info.duration (detectScenes ts)).map
            (mkClip info.duration (detectScenes ts)),
         info.duration, info.format, info.resolution⟩,
       [⟨5, "Analyzing video...", Phase.probing⟩,
        ⟨15, "Detecting scenes...", Phase.detecting⟩,
        ⟨30, "Extracting clips...", Phase.extracting⟩]
         ++ (keptIndices info.duration (detectScenes ts)).map
             (mkClipEvent (detectScenes ts))
         ++ [⟨100, "Processing complete", Phase.done⟩]) := by
  have hne : ¬ (detectScenes ts).length = 0 := by
    rw [detectScenes_length]; exact Nat.succ_ne_zero _
  unfold processVideo
  rw [if_neg hne, extractLoop_eq]

/-- Retained indices are strictly increasing. -/
theorem keptIndices_pairwise (d : ℕ) (s : List ℕ) :
    List.Pairwise (· < ·) (keptIndices d s) :=
  (List.pairwise_lt_range _).filter _

/-- Every retained index is an index into the boundary list. -/
theorem keptIndices_mem_lt (d : ℕ) (s : List ℕ) {i : ℕ}
    (h : i ∈ keptIndices d s) : i < s.length :=
  List.mem_range.mp (List.mem_filter.mp h).1

/-- The per-clip progress value never exceeds 90. -/
theorem clipProgress_le_90 (s : List ℕ) {i : ℕ} (h : i < s.length) :
    30 + (i + 1) * 60 / s.length ≤ 90 := by
  have h1 : (i + 1) * 60 ≤ s.length * 60 :=
    Nat.mul_le_mul_right 60 (Nat.succ_le_of_lt h)
  have h2 : (i + 1) * 60 / s.length ≤ s.length * 60 / s.length :=
    Nat.div_le_div_right h1
  have h3 : s.length * 60 / s.length ≤ 60 := by
    rcases Nat.eq_zero_or_pos s.length with h0 | h0
    · simp [h0]
    · rw [Nat.mul_div_cancel_left _ h0]
  exact Nat.add_le_add_left (le_trans h2 h3) 30

/-- The per-clip progress value is monotone in the candidate index. -/
theorem clipProgress_mono (s : List ℕ) {i j : ℕ} (h : i ≤ j) :
    30 + (i + 1) * 60 / s.length ≤ 30 + (j + 1) * 60 / s.length :=
  Nat.add_le_add_left
    (Nat.div_le_div_right (Nat.mul_le_mul_right 60 (Nat.succ_le_succ h))) 30

/-- The progress percentages of a run, in emission order, in closed form. -/
theorem processVideo_progress_map (info : MediaMetadata) (ts : List ℕ) :
    ((processVideo info ts).2).map ProgressEvent.progress =
      [5, 15, 30]
        ++ (keptIndices info.duration (detectScenes ts)).map
            (fun i => 30 + (i + 1) * 60 / (detectScenes ts).length)
        ++ [100] := by
  rw [processVideo_eq]
  simp [List.map_map, mkClipEvent, Function.comp]

/-! ### Claims -/

/-- C1, counterexample: the process route enforces no single-flight.  With
video 1 registered and `pending`, a first start is accepted and leaves the
video non-terminal (`processing`); a second start issued while that run is
active is accepted again (and launches a second run) instead of being
rejected. -/
theorem start_single_flight_cex :
    (processRoute [(1, "pending")] 1).1 = ProcessResponse.started ∧
    getVideoStatus (processRoute [(1, "pending")] 1).2 1 = some "processing" ∧
    (processRoute (processRoute [(1, "pending")] 1).2 1).1 =
      ProcessResponse.started :=
  ⟨rfl, rfl, rfl⟩

/-- C1, amended: a start request for any identity whose video exists is
accepted (a fresh `processVideo` run is launched) regardless of the state
of any prior run; only an unknown id is turned away. -/
theorem start_accepted_whenever_video_exists (videos : VideoStore)
    (videoId : ℕ) (st : String) (h : getVideoStatus videos videoId = some st) :
    (processRoute videos videoId).1 = ProcessResponse.started := by
  unfold processRoute
  rw [h]

/-- Witness for `start_accepted_whenever_video_exists` at a video whose
prior run is still active. -/
theorem start_accepted_whenever_video_exists_witness :
    getVideoStatus [(1, "processing")] 1 = some "processing" ∧
    (processRoute [(1, "processing")] 1).1 = ProcessResponse.started :=
  ⟨rfl, start_accepted_whenever_video_exists [(1, "processing")] 1 "processing" rfl⟩

/-- C2, counterexample: on a source for which the detector emits zero
boundaries, `detectScenes` still returns `[0]` (the seeded start), so the
`scenes.length === 0` guard never fires and the run completes, emitting
exactly one whole-video clip `[0, 10000)` rather than failing. -/
theorem zero_boundaries_cex :
    detectScenes [] = [0] ∧
    (processVideo ⟨10000, "H264", "1920 x 1080"⟩ []).1 =
      RunOutcome.completed ⟨[⟨0, 10000⟩], 10000, "H264", "1920 x 1080"⟩ :=
  ⟨rfl, rfl⟩

/-- C2, amended: for every source on which the detector emits zero
boundaries and whose probed duration is at least 500 ms, the run completes
(never fails) with a single whole-video clip `[0, duration)`. -/
theorem zero_boundaries_completes (info : MediaMetadata)
    (h : 500 ≤ info.duration) :
    (processVideo info []).1 =
      RunOutcome.completed
        ⟨[⟨0, info.duration⟩], info.duration, info.format, info.resolution⟩ := by
  rw [processVideo_eq]
  have hd : detectScenes [] = [0] := rfl
  have hcd : candidateDuration info.duration [0] 0 = info.duration := by
    simp [candidateDuration, sceneEndTime]
  have hnot : ¬ candidateDuration info.duration [0] 0 < 500 := by
    rw [hcd]; exact Nat.not_lt.mpr h
  rw [hd]
  have hr1 : List.range 1 = [0] := rfl
  have hkept : keptIndices info.duration [0] = [0] := by
    unfold keptIndices
    rw [show ([0] : List ℕ).length = 1 from rfl, hr1, List.filter_cons]
    simp [hnot]
  rw [hkept]
  simp [mkClip, sceneEndTime]

/-- Witness for `zero_boundaries_completes` at duration 10000. -/
theorem zero_boundaries_completes_witness :
    (500 : ℕ) ≤ 10000 ∧
    (processVideo ⟨10000, "Z264", "640 x 480"⟩ []).1 =
      RunOutcome.completed ⟨[⟨0, 10000⟩], 10000, "Z264", "640 x 480"⟩ :=
  ⟨by decide, zero_boundaries_completes ⟨10000, "Z264", "640 x 480"⟩ (by decide)⟩

/-- C3, counterexample: the per-candidate blend distributes 60 points, not
70.  On a run with exactly one candidate (zero detector boundaries,
duration 10000), the event after the last (1st of 1) candidate carries
progress `30 + 60 = 90`, not the claim's `30 + (1/1)·70 = 100`. -/
theorem progress_blend_cex :
    ((processVideo ⟨10000, "H264", "1920 x 1080"⟩ []).2).map
        ProgressEvent.progress = [5, 15, 30, 90, 100] ∧
    (90 : ℕ) ≠ 30 + 1 * 70 / 1 :=
  ⟨rfl, by decide⟩

/-- C3, amended: every run emits 5 on entering `Probing`, 15 at the start
of `Detecting`, 30 at the start of `Extracting`, then one event per
retained candidate `i` (0-based among the `n` raw candidates) carrying
`30 + ⌊((i+1)/n)·60⌋` — sixty, not seventy, points spread over the
candidates, topping out at 90 — and 100 only at final completion. -/
theorem progress_blend_sixty_points (info : MediaMetadata) (ts : List ℕ) :
    ((processVideo info ts).2).map ProgressEvent.progress =
      [5, 15, 30]
        ++ (keptIndices info.duration (detectScenes ts)).map
            (fun i => 30 + (i + 1) * 60 / (detectScenes ts).length)
        ++ [100] :=
  processVideo_progress_map info ts

/-- C4, counterexample: with probed duration 10000 and detected boundaries
`[0, 2000, 2300, 7000]` there are 4 candidates of which 1 (the 300 ms one)
is discarded and 3 retained, yet the loop emits only 3 per-candidate
progress events, not `d + r = 4` — `continue` skips the `onProgress` call
for a discarded candidate. -/
theorem event_per_candidate_cex :
    (detectScenes [2000, 2300, 7000]).length = 4 ∧
    keptIndices 10000 (detectScenes [2000, 2300, 7000]) = [0, 2, 3] ∧
    ((extractLoop 10000 (detectScenes [2000, 2300, 7000])).2).length = 3 ∧
    (3 : ℕ) ≠ 4 :=
  ⟨rfl, rfl, rfl, by decide⟩

/-- C4, amended: during the Extracting phase a progress event is emitted
only after each retained candidate; discarded candidates (shorter than
500 ms) emit none, so a boundary list with `d` discarded and `r` retained
candidates yields exactly `r` per-candidate events — one per extracted
clip. -/
theorem events_only_for_retained (d : ℕ) (s : List ℕ) :
    ((extractLoop d s).2).length = (keptIndices d s).length ∧
    ((extractLoop d s).1).length = (keptIndices d s).length := by
  rw [extractLoop_eq]
  simp

/-- C5: for every run that reaches `Completed`, the scene indices stored
for its clips by the completion handler are exactly `0, 1, ..., r-1` where
`r` is the number of retained clips, however many raw candidates were
discarded. -/
theorem scene_indices_contiguous (info : MediaMetadata) (ts : List ℕ)
    (res : ProcessResults)
    (_h : (processVideo info ts).1 = RunOutcome.completed res) :
    (onCompleteClips res.clips).map ClipRecord.sceneIndex =
      List.range res.clips.length := by
  unfold onCompleteClips
  rw [List.map_map]
  have hcomp : (ClipRecord.sceneIndex ∘ fun p : ℕ × ClipResult =>
      (⟨p.1, p.2.startTime, p.2.endTime, p.2.endTime - p.2.startTime⟩ :
        ClipRecord)) = Prod.fst := rfl
  rw [hcomp, List.enum_map_fst]

/-- Witness for `scene_indices_contiguous` on a completed three-clip run. -/
theorem scene_indices_contiguous_witness :
    (processVideo ⟨10000, "H264", "1920 x 1080"⟩ [2000, 2300, 7000]).1 =
      RunOutcome.completed
        ⟨[⟨0, 2000⟩, ⟨2300, 7000⟩, ⟨7000, 10000⟩], 10000, "H264", "1920 x 1080"⟩ ∧
    (onCompleteClips [⟨0, 2000⟩, ⟨2300, 7000⟩, ⟨7000, 10000⟩]).map
        ClipRecord.sceneIndex =
      List.range ([⟨0, 2000⟩, ⟨2300, 7000⟩, ⟨7000, 10000⟩] : List ClipResult).length :=
  ⟨rfl, scene_indices_contiguous ⟨10000, "H264", "1920 x 1080"⟩ [2000, 2300, 7000]
    ⟨[⟨0, 2000⟩, ⟨2300, 7000⟩, ⟨7000, 10000⟩], 10000, "H264", "1920 x 1080"⟩ rfl⟩

/-- C6: on a source of probed duration 10000 ms with detected boundaries
`[0, 2000, 2300, 7000]`, the candidate durations are
`2000, 300, 4700, 3000`; the 300 ms candidate is discarded; the run
completes with exactly 3 clips over `[0,2000)`, `[2300,7000)`,
`[7000,10000)`, stored with scene indices `0, 1, 2`. -/
theorem scenario_ten_second_source :
    detectScenes [2000, 2300, 7000] = [0, 2000, 2300, 7000] ∧
    (List.range 4).map (candidateDuration 10000 [0, 2000, 2300, 7000]) =
      [2000, 300, 4700, 3000] ∧
    keptIndices 10000 [0, 2000, 2300, 7000] = [0, 2, 3] ∧
    (processVideo ⟨10000, "H264", "1920 x 1080"⟩ [2000, 2300, 7000]).1 =
      RunOutcome.completed
        ⟨[⟨0, 2000⟩, ⟨2300, 7000⟩, ⟨7000, 10000⟩], 10000, "H264", "1920 x 1080"⟩ ∧
    onCompleteClips [⟨0, 2000⟩, ⟨2300, 7000⟩, ⟨7000, 10000⟩] =
      [⟨0, 0, 2000, 2000⟩, ⟨1, 2300, 7000, 4700⟩, ⟨2, 7000, 10000, 3000⟩] :=
  ⟨rfl, rfl, rfl, rfl, rfl⟩

/-- C7: for every run, the emitted progress percentages are monotonically
non-decreasing, and the phases of the events are ordered — no event of an
earlier phase is generated after an event of a later phase of the same
run. -/
theorem progress_monotone_phase_ordered (info : MediaMetadata) (ts : List ℕ) :
    List.Pairwise (· ≤ ·)
      (((processVideo info ts).2).map ProgressEvent.progress) ∧
    List.Pairwise (fun a b => phaseRank a ≤ phaseRank b)
      (((processVideo info ts).2).map ProgressEvent.phase) := by
  constructor
  · rw [processVideo_progress_map]
    have hmidPW : List.Pairwise (· ≤ ·)
        ((keptIndices info.duration (detectScenes ts)).map
          fun i => 30 + (i + 1) * 60 / (detectScenes ts).length) := by
      refine List.pairwise_map.mpr ?_
      exact (keptIndices_pairwise _ _).imp
        fun hij => clipProgress_mono _ (le_of_lt hij)
    have hmid_lb : ∀ x ∈ (keptIndices info.duration (detectScenes ts)).map
        (fun i => 30 + (i + 1) * 60 / (detectScenes ts).length), 30 ≤ x := by
      intro x hx
      rcases List.mem_map.mp hx with ⟨i, _, rfl⟩
      exact Nat.le_add_right 30 _
    have hmid_ub : ∀ x ∈ (keptIndices info.duration (detectScenes ts)).map
        (fun i => 30 + (i + 1) * 60 / (detectScenes ts).length), x ≤ 90 := by
      intro x hx
      rcases List.mem_map.mp hx with ⟨i, hi, rfl⟩
      exact clipProgress_le_90 _ (keptIndices_mem_lt _ _ hi)
    rw [List.pairwise_append]
    refine ⟨?_, List.pairwise_singleton _ _, ?_⟩
    · rw [List.pairwise_append]
      refine ⟨by decide, hmidPW, ?_⟩
      intro a ha b hb
      have h30 : a ≤ 30 := by
        simp only [List.mem_cons, List.not_mem_nil, or_false] at ha
        rcases ha with rfl | rfl | rfl <;> decide
      exact le_trans h30 (hmid_lb b hb)
    · intro a ha b hb
      rw [List.mem_singleton.mp hb]
      rcases List.mem_append.mp ha with ha | ha
      · have h30 : a ≤ 30 := by
          simp only [List.mem_cons, List.not_mem_nil, or_false] at ha
          rcases ha with rfl | rfl | rfl <;> decide
        exact le_trans h30 (by decide)
      · exact le_trans (hmid_ub a ha) (by decide)
  · have hmap : ((processVideo info ts).2).map ProgressEvent.phase =
        [Phase.probing, Phase.detecting, Phase.extracting]
          ++ (keptIndices info.duration (detectScenes ts)).map
              (fun _ => Phase.extracting)
          ++ [Phase.done] := by
      rw [processVideo_eq]
      simp only [List.map_append, List.map_map, List.map_cons, List.map_nil]
      rfl
    rw [hmap]
    rw [List.pairwise_append]
    refine ⟨?_, List.pairwise_singleton _ _, ?_⟩
    · rw [List.pairwise_append]
      refine ⟨by decide, ?_, ?_⟩
      · exact List.pairwise_map.mpr
          ((keptIndices_pairwise _ _).imp fun _ => le_refl _)
      · intro a ha b hb
        rcases List.mem_map.mp hb with ⟨i, _, rfl⟩
        simp only [List.mem_cons, List.not_mem_nil, or_false] at ha
        rcases ha with rfl | rfl | rfl <;> decide
    · intro a ha b hb
      rw [List.mem_singleton.mp hb]
      cases a <;> decide

/-- C8, counterexample: a detector emission at time 0 collides with the
seeded start boundary, so the returned sequence `[0, 0]` is not strictly
increasing. -/
theorem boundaries_strictness_cex :
    detectScenes [0] = [0, 0] ∧
    ¬ List.Pairwise (· < ·) (detectScenes [0]) :=
  ⟨rfl, by decide⟩

/-- C8, amended: for every input the boundary sequence returned by scene
detection is sorted ascending and begins at time zero, but it need not be
strictly increasing — duplicate timestamps survive the sort. -/
theorem boundaries_sorted_from_zero (ts : List ℕ) :
    List.Sorted (· ≤ ·) (detectScenes ts) ∧
    (detectScenes ts).head? = some 0 :=
  ⟨detectScenes_sorted ts, detectScenes_head ts⟩

/-- C9, counterexample: a run that has just entered `Extracting` has most
recently emitted progress 30, yet the status endpoint answers progress 0
for the still-`processing` video — the snapshot does not reflect the run's
current progress (and carries no stage field at all). -/
theorem status_snapshot_progress_cex :
    (((processVideo ⟨10000, "H264", "1920 x 1080"⟩ [2000, 2300, 7000]).2).take 3).map
        ProgressEvent.progress = [5, 15, 30] ∧
    (statusRoute [(1, "processing")] (fun _ => []) 1).map StatusResponse.progress =
      some 0 ∧
    (0 : ℕ) ≠ 30 :=
  ⟨rfl, rfl, by decide⟩

/-- C9, amended: for every identity with a registered video, the status
query returns the stored processing status, the clips currently persisted,
and a progress field that is 0 whenever the stored status is not
`"completed"` (and 100 when it is) — it never reflects the live run's
progress percentage, and the response has no stage field. -/
theorem status_progress_fixed (videos : VideoStore)
    (clipsOf : ℕ → List ClipRecord) (videoId : ℕ) (st : String)
    (h : getVideoStatus videos videoId = some st) (hnc : st ≠ "completed") :
    statusRoute videos clipsOf videoId = some ⟨st, 0, clipsOf videoId⟩ := by
  unfold statusRoute
  rw [h]
  have hb : (st == "completed") = false := beq_eq_false_iff_ne.mpr hnc
  simp [hb]

/-- Witness for `status_progress_fixed` on a mid-run (`processing`)
video. -/
theorem status_progress_fixed_witness :
    getVideoStatus [(1, "processing")] 1 = some "processing" ∧
    ("processing" : String) ≠ "completed" ∧
    statusRoute [(1, "processing")] (fun _ => []) 1 =
      some ⟨"processing", 0, []⟩ :=
  ⟨rfl, by decide,
   status_progress_fixed [(1, "processing")] (fun _ => []) 1 "processing" rfl
     (by decide)⟩

/-- C10: a published status event is delivered to every currently open
client, with the payload carrying the `videoId`, irrespective of which
video the observer is interested in (no server-side filtering); a client
whose connection is not open is skipped and left untouched. -/
theorem broadcast_reaches_open_clients {α : Type} (clients : List (WsClient α))
    (videoId : ℕ) (status : α) :
    (broadcastStatus clients videoId status).length = clients.length ∧
    ∀ i : ℕ, ∀ c : WsClient α, clients[i]? = some c →
      (c.readyState = 1 →
        (broadcastStatus clients videoId status)[i]? =
          some { c with inbox := c.inbox ++ [(videoId, status)] }) ∧
      (c.readyState ≠ 1 →
        (broadcastStatus clients videoId status)[i]? = some c) := by
  constructor
  · simp [broadcastStatus]
  · intro i c hc
    constructor
    · intro h1
      unfold broadcastStatus
      rw [List.getElem?_map, hc]
      simp [h1]
    · intro h1
      unfold broadcastStatus
      rw [List.getElem?_map, hc]
      simp [h1]

/-- Witness for `broadcast_reaches_open_clients`: two clients interested in
video 7, one open and one closed; a broadcast about video 9 lands in the
open client's inbox tagged with video 9 and leaves the closed client
untouched. -/
theorem broadcast_reaches_open_clients_witness :
    ([⟨1, 7, []⟩, ⟨3, 7, []⟩] : List (WsClient ℕ))[0]? = some ⟨1, 7, []⟩ ∧
    (broadcastStatus ([⟨1, 7, []⟩, ⟨3, 7, []⟩] : List (WsClient ℕ)) 9 42)[0]? =
      some ⟨1, 7, [(9, 42)]⟩ :=
  ⟨rfl,
   ((broadcast_reaches_open_clients [⟨1, 7, []⟩, ⟨3, 7, []⟩] 9 42).2 0
     ⟨1, 7, []⟩ rfl).1 rfl⟩

end MagicCut
